import Mathlib

/-!
Verification development for the ari-py / tornado-ari client library.

This file gives a shallow embedding of the event-correlation and
object-promotion core of the repository:

* `tornado_ari/model.py` — identity strategies (`DefaultObjectIdGenerator`,
  `EndpointIdGenerator`), `BaseObject` operation enrichment, `promote`,
  and `CLASS_MAP`;
* `tornado_ari/client.py` — the dispatch loop `Client.__run` (event
  enrichment and single-resolution future listeners) and `Client.on_event`;
* `ari/client.py` — the dispatch loop `Client.__run` (snapshot-then-iterate
  delivery to persistent callbacks with a per-callback exception boundary),
  `Client.on_event` / `EventUnsubscriber.close`, and
  `Client.on_object_event`.

Python dicts are modelled as association lists keyed by `String`; machine
integers do not occur in the modelled code.  Fallible Python code (KeyError,
ValueError, json.loads failures, tornado's `rethrow`) is modelled with
`Except String`.
-/

namespace AriPy

/-- JSON values exactly as decoded from the transport: null, booleans,
numbers, strings, ordered sequences and mappings. -/
inductive Json where
  | null
  | bool (b : Bool)
  | num (n : Int)
  | str (s : String)
  | arr (xs : List Json)
  | obj (fields : List (String × Json))
deriving Repr, BEq

mutual

/-- Decidable equality on JSON values (the nested inductive prevents
automatic derivation). -/
def Json.decEq : (a b : Json) → Decidable (a = b)
  | .null, .null => isTrue rfl
  | .bool a, .bool b =>
    match Bool.decEq a b with
    | isTrue h => isTrue (by rw [h])
    | isFalse h => isFalse (fun hh => h (Json.bool.inj hh))
  | .num a, .num b =>
    match Int.decEq a b with
    | isTrue h => isTrue (by rw [h])
    | isFalse h => isFalse (fun hh => h (Json.num.inj hh))
  | .str a, .str b =>
    match String.decEq a b with
    | isTrue h => isTrue (by rw [h])
    | isFalse h => isFalse (fun hh => h (Json.str.inj hh))
  | .arr a, .arr b =>
    match Json.decEqList a b with
    | isTrue h => isTrue (by rw [h])
    | isFalse h => isFalse (fun hh => h (Json.arr.inj hh))
  | .obj a, .obj b =>
    match Json.decEqFields a b with
    | isTrue h => isTrue (by rw [h])
    | isFalse h => isFalse (fun hh => h (Json.obj.inj hh))
  | .null, .bool _ => isFalse (fun h => Json.noConfusion h)
  | .null, .num _ => isFalse (fun h => Json.noConfusion h)
  | .null, .str _ => isFalse (fun h => Json.noConfusion h)
  | .null, .arr _ => isFalse (fun h => Json.noConfusion h)
  | .null, .obj _ => isFalse (fun h => Json.noConfusion h)
  | .bool _, .null => isFalse (fun h => Json.noConfusion h)
  | .bool _, .num _ => isFalse (fun h => Json.noConfusion h)
  | .bool _, .str _ => isFalse (fun h => Json.noConfusion h)
  | .bool _, .arr _ => isFalse (fun h => Json.noConfusion h)
  | .bool _, .obj _ => isFalse (fun h => Json.noConfusion h)
  | .num _, .null => isFalse (fun h => Json.noConfusion h)
  | .num _, .bool _ => isFalse (fun h => Json.noConfusion h)
  | .num _, .str _ => isFalse (fun h => Json.noConfusion h)
  | .num _, .arr _ => isFalse (fun h => Json.noConfusion h)
  | .num _, .obj _ => isFalse (fun h => Json.noConfusion h)
  | .str _, .null => isFalse (fun h => Json.noConfusion h)
  | .str _, .bool _ => isFalse (fun h => Json.noConfusion h)
  | .str _, .num _ => isFalse (fun h => Json.noConfusion h)
  | .str _, .arr _ => isFalse (fun h => Json.noConfusion h)
  | .str _, .obj _ => isFalse (fun h => Json.noConfusion h)
  | .arr _, .null => isFalse (fun h => Json.noConfusion h)
  | .arr _, .bool _ => isFalse (fun h => Json.noConfusion h)
  | .arr _, .num _ => isFalse (fun h => Json.noConfusion h)
  | .arr _, .str _ => isFalse (fun h => Json.noConfusion h)
  | .arr _, .obj _ => isFalse (fun h => Json.noConfusion h)
  | .obj _, .null => isFalse (fun h => Json.noConfusion h)
  | .obj _, .bool _ => isFalse (fun h => Json.noConfusion h)
  | .obj _, .num _ => isFalse (fun h => Json.noConfusion h)
  | .obj _, .str _ => isFalse (fun h => Json.noConfusion h)
  | .obj _, .arr _ => isFalse (fun h => Json.noConfusion h)

/-- Decidable equality on lists of JSON values. -/
def Json.decEqList : (a b : List Json) → Decidable (a = b)
  | [], [] => isTrue rfl
  | [], _ :: _ => isFalse (fun h => List.noConfusion h)
  | _ :: _, [] => isFalse (fun h => List.noConfusion h)
  | x :: xs, y :: ys =>
    match Json.decEq x y with
    | isFalse h => isFalse (fun hh => h (List.cons.inj hh).1)
    | isTrue h1 =>
      match Json.decEqList xs ys with
      | isTrue h2 => isTrue (by rw [h1, h2])
      | isFalse h => isFalse (fun hh => h (List.cons.inj hh).2)

/-- Decidable equality on JSON object field lists. -/
def Json.decEqFields : (a b : List (String × Json)) → Decidable (a = b)
  | [], [] => isTrue rfl
  | [], _ :: _ => isFalse (fun h => List.noConfusion h)
  | _ :: _, [] => isFalse (fun h => List.noConfusion h)
  | (k1, v1) :: xs, (k2, v2) :: ys =>
    match String.decEq k1 k2 with
    | isFalse h =>
      isFalse (fun hh => h (congrArg Prod.fst (List.cons.inj hh).1))
    | isTrue hk =>
      match Json.decEq v1 v2 with
      | isFalse h =>
        isFalse (fun hh => h (congrArg Prod.snd (List.cons.inj hh).1))
      | isTrue hv =>
        match Json.decEqFields xs ys with
        | isTrue ht => isTrue (by rw [hk, hv, ht])
        | isFalse h => isFalse (fun hh => h (List.cons.inj hh).2)

end

instance : DecidableEq Json := Json.decEq

/-- Python dict lookup `d.get(k)` on an association-list model of a dict:
the value of the first entry whose key equals `k`, if any. -/
def dlookup (d : List (String × Json)) (k : String) : Option Json :=
  (d.find? (fun p => p.1 == k)).map (fun p => p.2)

/-- Python subscripting `j[k]` for a JSON value: defined only on objects. -/
def Json.getField (j : Json) (k : String) : Option Json :=
  match j with
  | .obj fs => dlookup fs k
  | _ => none

/-- Python truthiness of a decoded JSON value (`if event.get(obj_field)`). -/
def Json.truthy : Json → Bool
  | .null => false
  | .bool b => b
  | .num n => n != 0
  | .str s => s != ""
  | .arr xs => !xs.isEmpty
  | .obj fs => !fs.isEmpty

/-- Python `str()` conversion as used by string interpolation in
`EndpointIdGenerator.id_as_str`.  Scalar cases are exact; the composite
cases only occur for malformed projections and get a fixed rendering. -/
def Json.pyStr : Json → String
  | .str s => s
  | .num n => toString n
  | .bool b => if b then "True" else "False"
  | .null => "None"
  | .arr _ => "<list>"
  | .obj _ => "<dict>"

/-- The `(param_name, id_field)` pair of the `DefaultObjectIdGenerator`
attached to each first-class object class in `tornado_ari/model.py`.
`Endpoint` uses the composite `EndpointIdGenerator` and is handled
separately in `getParams` / `idAsStr`. -/
def defaultIdGen (cls : String) : Option (String × String) :=
  if cls == "Channel" then some ("channelId", "id")
  else if cls == "Bridge" then some ("bridgeId", "id")
  else if cls == "Playback" then some ("playbackId", "id")
  else if cls == "LiveRecording" then some ("recordingName", "name")
  else if cls == "StoredRecording" then some ("recordingName", "name")
  else if cls == "DeviceState" then some ("deviceName", "name")
  else if cls == "Sound" then some ("soundId", "id")
  else if cls == "Mailbox" then some ("mailboxName", "name")
  else none

/-- Model of `id_generator.get_params(obj_json)`: the identity query parameters of a
class applied to a JSON projection.  `EndpointIdGenerator.get_params` reads
`technology` and `resource` (KeyError propagates, `technology` first, as in
the dict literal's evaluation order); `DefaultObjectIdGenerator.get_params`
reads the configured id field. -/
def getParams (cls : String) (j : Json) : Except String (List (String × Json)) :=
  if cls == "Endpoint" then
    match j.getField "technology" with
    | none => .error "KeyError: technology"
    | some t =>
      match j.getField "resource" with
      | none => .error "KeyError: resource"
      | some r => .ok [("tech", t), ("resource", r)]
  else
    match defaultIdGen cls with
    | some pf =>
      match j.getField pf.2 with
      | some v => .ok [(pf.1, v)]
      | none => .error ("KeyError: " ++ pf.2)
    | none => .error "NotImplementedError"

/-- Model of `id_generator.id_as_str(obj_json)`: the canonical id of a projection.
The default strategy returns the raw value of the id field;
`EndpointIdGenerator` interpolates `tech` and `resource` from its
`get_params` result into a slash-separated string. -/
def idAsStr (cls : String) (j : Json) : Except String Json :=
  if cls == "Endpoint" then
    (getParams "Endpoint" j).map (fun p =>
      Json.str (((dlookup p "tech").getD Json.null).pyStr ++ "/" ++
        ((dlookup p "resource").getD Json.null).pyStr))
  else
    match defaultIdGen cls with
    | some pf =>
      match j.getField pf.2 with
      | some v => .ok v
      | none => .error ("KeyError: " ++ pf.2)
    | none => .error "NotImplementedError"

/-- A constructed first-class domain object: `BaseObject.__init__` stores the
client, the Swagger resource, the JSON projection and the id computed by the
class's id generator.  The class name stands in for the Python class. -/
structure DomainObject where
  cls : String
  json : Json
  objId : Json
deriving Repr, DecidableEq

/-- Applying a class constructor from `CLASS_MAP` to a JSON value:
`BaseObject.__init__` computes `self.id = self.id_generator.id_as_str(as_json)`,
so construction fails exactly when identity extraction fails. -/
def mkDomainObject (cls : String) (j : Json) : Except String DomainObject :=
  (idAsStr cls j).map (fun i => ⟨cls, j, i⟩)

/-- The keys of `CLASS_MAP` in `tornado_ari/model.py`; the constructor mapped
to a key `k` is modelled by `mkDomainObject k`.  (`Sound` is absent from the
map in the source.) -/
def CLASS_MAP : List String :=
  ["Bridge", "Channel", "Endpoint", "Playback", "LiveRecording",
   "StoredRecording", "Mailbox", "DeviceState"]

/-- Python `base.update(upd)` on dict models: entries of `base` whose key
also occurs in `upd` take the value from `upd`; keys only in `upd` are
appended. -/
def dictUpdate (base upd : List (String × Json)) : List (String × Json) :=
  base.map (fun p => (p.1, (dlookup upd p.1).getD p.2)) ++
    upd.filter (fun p => (dlookup base p.1).isNone)

/-- The merged parameter set built by `BaseObject.__getattr__`'s
`enrich_operation`: `kwargs.update(self.id_generator.get_params(self.json))`
merges the identity parameters into the caller-supplied arguments before the
underlying operation is invoked. -/
def enrichOperationParams (cls : String) (j : Json)
    (kwargs : List (String × Json)) : Except String (List (String × Json)) :=
  (getParams cls j).map (fun p => dictUpdate kwargs p)

/-- Left-to-right effectful map for `Except`: the model of a Python list
comprehension in which each element may raise, aborting the whole
comprehension at the first exception. -/
def mapExcept {α β : Type} (f : α → Except String β) :
    List α → Except String (List β)
  | [] => .ok []
  | a :: l => do
    let b ← f a
    let bs ← mapExcept f l
    pure (b :: bs)

/-- A received HTTP response as seen by `promote`: the status code and the
decoded body.  `body = none` models a body that `json.loads` rejects — in
particular the empty body of a 204 response. -/
structure HttpResponse where
  code : Nat
  body : Option Json
deriving Repr, DecidableEq

/-- The possible results of `promote`: `Python None`, a single domain
object, a list of domain objects, or raw parsed JSON. -/
inductive PromoteResult where
  | nullR
  | objR (d : DomainObject)
  | listR (ds : List DomainObject)
  | rawR (j : Json)
deriving Repr, DecidableEq

/-- The `re.match` against `List\x5b(.*)\x5d` in `promote`: when the declared
response class starts with `List[`, the (greedy) group extends to the last
`]` of the remainder; otherwise the class is returned unchanged with
`is_list = false`. -/
def stripListType (s : String) : String × Bool :=
  let cs := s.toList
  if cs.take 5 = ['L', 'i', 's', 't', '['] then
    let rest := cs.drop 5
    match rest.reverse.findIdx? (fun c => c = ']') with
    | some ridx => (String.mk (rest.take (rest.length - 1 - ridx)), true)
    | none => (s, false)
  else (s, false)

/-- Model of `promote(client, resp, operation_json)` from `tornado_ari/model.py`:
`resp.rethrow()` first (an HTTP error status raises), then the declared
response class is stripped of a `List[...]` wrapper and looked up in
`CLASS_MAP`; a found factory is applied to the parsed body (element-wise
for lists), `204` yields `None` only when no factory was found, and any
other unmapped response returns the parsed JSON unchanged. -/
def promote (responseClass : String) (resp : HttpResponse) :
    Except String PromoteResult :=
  if 400 ≤ resp.code then .error "HTTPError"
  else
    let sl := stripListType responseClass
    if CLASS_MAP.contains sl.1 then
      match resp.body with
      | none => .error "ValueError: json.loads failed"
      | some bodyJson =>
        if sl.2 then
          match bodyJson with
          | .arr xs =>
            (mapExcept (mkDomainObject sl.1) xs).map PromoteResult.listR
          | _ => .error "TypeError: response body is not a list"
        else (mkDomainObject sl.1 bodyJson).map PromoteResult.objR
    else if resp.code = 204 then .ok PromoteResult.nullR
    else
      match resp.body with
      | none => .error "ValueError: json.loads failed"
      | some bodyJson => .ok (PromoteResult.rawR bodyJson)

/-- A field value of an enriched event as built by the dispatch loop of
`tornado_ari/client.py`: either the raw JSON value passed through, a
constructed domain object, or a list of constructed domain objects (the
last form is what the specification predicts for `List[T]`-typed fields). -/
inductive EValue where
  | raw (j : Json)
  | dom (d : DomainObject)
  | domList (ds : List DomainObject)
deriving Repr, DecidableEq

/-- An event-type schema: the `properties` of one event model, as a mapping
from field name to declared type name (`v.type` in the source). -/
def Schema := List (String × String)

/-- Lookup of a field's declared type name in a schema. -/
def slookup (props : Schema) (k : String) : Option String :=
  (props.find? (fun p => p.1 == k)).map (fun p => p.2)

/-- Lookup of an event type's model in `self.event_models`. -/
def mlookup (eventModels : List (String × Schema)) (k : String) :
    Option Schema :=
  (eventModels.find? (fun p => p.1 == k)).map (fun p => p.2)

/-- Lookup of a field in an enriched event. -/
def elookup (ev : List (String × EValue)) (k : String) : Option EValue :=
  (ev.find? (fun p => p.1 == k)).map (fun p => p.2)

/-- The enrichment step of `Client.__run` in `tornado_ari/client.py`: with
no model for the event type the raw message is passed through; otherwise
each field of the message whose name is in the model's properties and whose
declared type is a key of `CLASS_MAP` has its value replaced by the
constructed domain object, and every other field is passed through
unchanged.  A constructor failure (identity extraction) propagates. -/
def enrichEvent (eventModels : List (String × Schema))
    (eventType : String) (msg : List (String × Json)) :
    Except String (List (String × EValue)) :=
  match mlookup eventModels eventType with
  | none => .ok (msg.map (fun p => (p.1, EValue.raw p.2)))
  | some props =>
    mapExcept (fun p =>
      match slookup props p.1 with
      | some ty =>
        if CLASS_MAP.contains ty then
          (mkDomainObject ty p.2).map (fun d => (p.1, EValue.dom d))
        else .ok (p.1, EValue.raw p.2)
      | none => .ok (p.1, EValue.raw p.2)) msg

/-- The subscriber registry of the callback-style client (`ari/client.py`,
`self.event_listeners`): event type → ordered list of registered listener
ids.  A listener id stands for one `(event_cb, args, kwargs)` tuple. -/
def Registry := String → List Nat

/-- Model of `Client.on_event` in `ari/client.py`: any existing registration of the
same callback is removed, then the callback tuple is appended to the event
type's listener list. -/
def subscribeCb (reg : Registry) (eventType : String) (c : Nat) : Registry :=
  fun k => if k = eventType then (reg eventType).erase c ++ [c] else reg k

/-- Model of `EventUnsubscriber.close` in `ari/client.py`: the callback tuple is
removed from the event type's listener list when present. -/
def unsubscribeCb (reg : Registry) (eventType : String) (c : Nat) : Registry :=
  fun k => if k = eventType then (reg eventType).erase c else reg k

/-- A registry mutation a callback may perform while it runs: registering or
unregistering a listener through the client's registration API. -/
inductive RegOp where
  | sub (eventType : String) (c : Nat)
  | unsub (eventType : String) (c : Nat)

/-- The observable behaviour of one persistent callback when invoked: the
registry mutations it performs, and whether it finishes by raising. -/
structure CbSpec where
  ops : List RegOp
  throws : Bool

/-- Apply one registry mutation. -/
def applyOp (reg : Registry) : RegOp → Registry
  | .sub et c => subscribeCb reg et c
  | .unsub et c => unsubscribeCb reg et c

/-- Apply a callback's registry mutations in order. -/
def applyOps (ops : List RegOp) (reg : Registry) : Registry :=
  ops.foldl applyOp reg

/-- The delivery loop of `Client.__run` in `ari/client.py` over one
snapshot: each listener of the snapshot is invoked in order (its registry
mutations take effect for later messages), and an exception raised by a
callback is caught by the per-listener `try ... except` and handed to
`self.exception_handler`.  Returns the registry after all callbacks ran,
the ids invoked in order, and the ids whose callbacks raised, in order. -/
def deliverAll (env : Nat → CbSpec) (ls : List Nat) (reg : Registry) :
    Registry × List Nat × List Nat :=
  match ls with
  | [] => (reg, [], [])
  | c :: rest =>
    let spec := env c
    let reg' := applyOps spec.ops reg
    let r := deliverAll env rest reg'
    (r.1, c :: r.2.1, if spec.throws then c :: r.2.2 else r.2.2)

/-- Dispatch of one decoded message in `Client.__run` of `ari/client.py`:
`listeners = list(self.event_listeners.get(msg_json['type'], []))` copies
the current listener list of the message's event type — this snapshot is
what licenses iterating over a fixed list while callbacks mutate the
registry — and the loop then delivers to every element of the snapshot. -/
def dispatchOne (env : Nat → CbSpec) (reg : Registry) (eventType : String) :
    Registry × List Nat × List Nat :=
  deliverAll env (reg eventType) reg

/-- One single-resolution listener of the tornado client as seen by one
delivery pass: the identity of its `(future, event_filter)` tuple, whether
`future.done()` already holds when the pass starts, and the precomputed
value of `event_filter is None or event_filter(event)` for the dispatched
event.  (The pass itself resolves a handle only in the same step in which
it removes it, so a static `done` flag is faithful for one pass.) -/
structure Handle where
  hid : Nat
  done : Bool
  matched : Bool
deriving Repr, DecidableEq

/-- Result of one delivery pass of the tornado dispatch loop: the listener
list it leaves behind, the ids resolved by `future.set_result` in order,
the already-done ids pruned without resolution in order, and every id the
loop's iterator actually reached, in order. -/
structure PassResult where
  remaining : List Handle
  resolved : List Nat
  prunedStale : List Nat
  visited : List Nat
deriving Repr, DecidableEq

/-- The listener loop of `Client.__run` in `tornado_ari/client.py`, for one
enriched event.  Python's `for listener in listeners` iterates the live
list by index while the loop body calls `listeners.remove(listener)`, which
deletes the first element equal to the current one and shifts the rest
left; the iterator's next read therefore skips one element after every
removal.  `p` is the index the iterator reads next.  A reached listener
whose future is already done is removed without `set_result`; otherwise a
passing (or absent) filter leads to `set_result` followed by removal. -/
def runPass (l : List Handle) (p : Nat) : PassResult :=
  if hp : p < l.length then
    let x := l.get ⟨p, hp⟩
    if x.done then
      let r := runPass (l.erase x) (p + 1)
      { r with
        prunedStale := x.hid :: r.prunedStale
        visited := x.hid :: r.visited }
    else if x.matched then
      let r := runPass (l.erase x) (p + 1)
      { r with
        resolved := x.hid :: r.resolved
        visited := x.hid :: r.visited }
    else
      let r := runPass l (p + 1)
      { r with visited := x.hid :: r.visited }
  else ⟨l, [], [], []⟩
termination_by l.length - p
decreasing_by
  · have hx : l.get ⟨p, hp⟩ ∈ l := l.get_mem p hp
    have := List.length_erase_of_mem hx
    omega
  · have hx : l.get ⟨p, hp⟩ ∈ l := l.get_mem p hp
    have := List.length_erase_of_mem hx
    omega
  · omega

/-- The `obj_fields` computation of `Client.on_object_event` in
`ari/client.py`: the names of the schema fields whose declared type equals
the requested model id, in schema order. -/
def objFieldsOf (props : Schema) (modelId : String) : List String :=
  (props.filter (fun p => p.2 == modelId)).map (fun p => p.1)

/-- The registration-time checks of `Client.on_object_event` in
`ari/client.py`: the event model must exist and must have at least one
field of the requested model type; both failures raise `ValueError` before
any subscription is created. -/
def onObjectEventFields (eventModels : List (String × Schema))
    (eventType modelId : String) : Except String (List String) :=
  match mlookup eventModels eventType with
  | none => .error "ValueError: cannot find event model"
  | some props =>
    let fields := objFieldsOf props modelId
    if fields.isEmpty then
      .error "ValueError: event model has no fields of the requested type"
    else .ok fields

/-- Model of `Client.on_object_event` as a registry transformer: on success the
wrapped extractor callback is registered through `Client.on_event`; on a
registration-time failure the exception propagates and the registry is
untouched. -/
def onObjectEventReg (eventModels : List (String × Schema)) (reg : Registry)
    (eventType modelId : String) (c : Nat) : Except String Registry :=
  (onObjectEventFields eventModels eventType modelId).map
    (fun _ => subscribeCb reg eventType c)

/-- The argument that `extract_objects` passes to the user callback: with a
single schema field of the requested type, the extracted object itself (or
`None` when absent); with several such fields, the field-name-keyed
mapping. -/
inductive ExtractedArg where
  | one (d : Option DomainObject)
  | many (m : List (String × DomainObject))
deriving Repr, DecidableEq

/-- The `extract_objects` closure of `Client.on_object_event` in
`ari/client.py`: build `{f: factory_fn(client, event[f])}` over the schema
fields of the requested type whose value in this message is truthy, then
collapse to the single value (or `None`) when the schema has exactly one
such field.  `factory_fn` is the class constructor fixed at registration
(e.g. `Channel`), modelled by `mkDomainObject cls`. -/
def extractObjects (cls : String) (objFields : List String)
    (event : List (String × Json)) : Except String ExtractedArg := do
  let entries ←
    mapExcept
      (fun f =>
        (mkDomainObject cls ((dlookup event f).getD Json.null)).map
          (fun d => (f, d)))
      (objFields.filter
        (fun f => ((dlookup event f).getD Json.null).truthy))
  if objFields.length = 1 then
    pure (ExtractedArg.one ((entries.map (fun p => p.2)).head?))
  else
    pure (ExtractedArg.many entries)

/-- The single-resolution listener registry of the tornado client
(`self.event_listeners`, a defaultdict of lists): event type → ordered list
of pending `(future, event_filter)` ids. -/
def TRegistry := String → List Nat

/-- Model of `Client.on_event` in `tornado_ari/client.py`: an event type absent from
`self.event_models` raises `ValueError`; otherwise a fresh future paired
with the filter is appended to the event type's listener list and the
future is returned. -/
def onEventT (eventModels : List (String × Schema)) (reg : TRegistry)
    (eventType : String) (lid : Nat) : Except String TRegistry :=
  if (mlookup eventModels eventType).isSome then
    .ok (fun k => if k = eventType then reg eventType ++ [lid] else reg k)
  else .error "ValueError: cannot find event model"

/-! ### Helper lemmas -/

theorem find?_filter_of_imp {α} (l : List α) (p g : α → Bool)
    (h : ∀ a, p a = true → g a = true) :
    (l.filter g).find? p = l.find? p := by
  induction l with
  | nil => rfl
  | cons a l ih =>
    by_cases hp : p a = true
    · rw [List.filter_cons, h a hp]
      simp [List.find?_cons, hp, ih]
    · by_cases hg : g a = true
      · rw [List.filter_cons, if_pos hg]
        simp [List.find?_cons, hp, ih]
      · rw [List.filter_cons, if_neg hg]
        simp [List.find?_cons, hp, ih]

theorem dlookup_mapUpd (base upd : List (String × Json)) (k : String) :
    dlookup (base.map (fun p => (p.1, (dlookup upd p.1).getD p.2))) k =
      (dlookup base k).map (fun v => (dlookup upd k).getD v) := by
  induction base with
  | nil => rfl
  | cons a l ih =>
    by_cases h : (a.1 == k) = true
    · have hk : a.1 = k := eq_of_beq h
      simp [dlookup, List.find?_cons, h, hk]
    · simp only [dlookup, List.map_cons, List.find?_cons, h] at ih ⊢
      exact ih

theorem dlookup_filter_of_none (base upd : List (String × Json)) (k : String)
    (hb : dlookup base k = none) :
    dlookup (upd.filter (fun p => (dlookup base p.1).isNone)) k =
      dlookup upd k := by
  unfold dlookup
  rw [find?_filter_of_imp]
  intro p hp
  have hpk : p.1 = k := eq_of_beq hp
  simp only [dlookup] at hb
  rw [hpk, hb]
  rfl

theorem dlookup_filter_of_some (base upd : List (String × Json)) (k : String)
    (v : Json) (hb : dlookup base k = some v) :
    dlookup (upd.filter (fun p => (dlookup base p.1).isNone)) k = none := by
  induction upd with
  | nil => rfl
  | cons a l ih =>
    by_cases hk : (a.1 == k) = true
    · have ha : a.1 = k := eq_of_beq hk
      have : (dlookup base a.1).isNone = false := by simp [ha, hb]
      rw [List.filter_cons, this]
      simpa using ih
    · by_cases hg : (dlookup base a.1).isNone = true
      · rw [List.filter_cons, if_pos hg]
        simp only [dlookup, List.find?_cons, hk] at ih ⊢
        exact ih
      · rw [List.filter_cons, if_neg hg]
        exact ih

theorem dlookup_append (x y : List (String × Json)) (k : String) :
    dlookup (x ++ y) k =
      match dlookup x k with
      | some v => some v
      | none => dlookup y k := by
  unfold dlookup
  rw [List.find?_append]
  cases hx : x.find? (fun p => p.1 == k) <;> simp [Option.orElse]

/-- Identity parameters override caller arguments of the same name in the
merged dict. -/
theorem dlookup_dictUpdate_of_some (base upd : List (String × Json))
    (k : String) (v : Json) (hu : dlookup upd k = some v) :
    dlookup (dictUpdate base upd) k = some v := by
  unfold dictUpdate
  rw [dlookup_append, dlookup_mapUpd]
  cases hb : dlookup base k with
  | some w => simp [hu]
  | none => simp [dlookup_filter_of_none base upd k hb, hu]

/-- Keys absent from the identity parameters keep the caller's value in the
merged dict. -/
theorem dlookup_dictUpdate_of_none (base upd : List (String × Json))
    (k : String) (hu : dlookup upd k = none) :
    dlookup (dictUpdate base upd) k = dlookup base k := by
  unfold dictUpdate
  rw [dlookup_append, dlookup_mapUpd]
  cases hb : dlookup base k with
  | some w => simp [hu]
  | none => simp [dlookup_filter_of_none base upd k hb, hu]

/-! ### C7 — Endpoint identity strategy -/

/-- C7: for every Endpoint projection containing `technology` and
`resource`, `get_params` returns exactly the mapping
`tech ↦ projection.technology, resource ↦ projection.resource`, and
`id_as_str` interpolates them as `tech/resource` (so the PJSIP/alice
projection yields the id string `PJSIP/alice`); a missing field makes both
identity extractions fail with the propagated KeyError. -/
theorem C7_endpoint_identity (fs : List (String × Json)) :
    (∀ t r, dlookup fs "technology" = some t → dlookup fs "resource" = some r →
      getParams "Endpoint" (Json.obj fs) = .ok [("tech", t), ("resource", r)] ∧
      idAsStr "Endpoint" (Json.obj fs) =
        .ok (Json.str (t.pyStr ++ "/" ++ r.pyStr))) ∧
    (dlookup fs "technology" = none →
      getParams "Endpoint" (Json.obj fs) = .error "KeyError: technology" ∧
      idAsStr "Endpoint" (Json.obj fs) = .error "KeyError: technology") ∧
    (∀ t, dlookup fs "technology" = some t → dlookup fs "resource" = none →
      getParams "Endpoint" (Json.obj fs) = .error "KeyError: resource" ∧
      idAsStr "Endpoint" (Json.obj fs) = .error "KeyError: resource") ∧
    (getParams "Endpoint" (Json.obj
        [("technology", Json.str "PJSIP"), ("resource", Json.str "alice")]) =
      .ok [("tech", Json.str "PJSIP"), ("resource", Json.str "alice")]) ∧
    (idAsStr "Endpoint" (Json.obj
        [("technology", Json.str "PJSIP"), ("resource", Json.str "alice")]) =
      .ok (Json.str "PJSIP/alice")) := by
  refine ⟨?_, ?_, ?_, rfl, rfl⟩
  · intro t r ht hr
    have hgp : getParams "Endpoint" (Json.obj fs) =
        .ok [("tech", t), ("resource", r)] := by
      simp [getParams, Json.getField, ht, hr]
    refine ⟨hgp, ?_⟩
    simp [idAsStr, hgp, dlookup, List.find?_cons, Except.map]
  · intro ht
    have hgp : getParams "Endpoint" (Json.obj fs) =
        .error "KeyError: technology" := by
      simp [getParams, Json.getField, ht]
    exact ⟨hgp, by simp [idAsStr, hgp, Except.map]⟩
  · intro t ht hr
    have hgp : getParams "Endpoint" (Json.obj fs) =
        .error "KeyError: resource" := by
      simp [getParams, Json.getField, ht, hr]
    exact ⟨hgp, by simp [idAsStr, hgp, Except.map]⟩

/-- Witness for C7 at the PJSIP/alice projection. -/
theorem C7_endpoint_identity_witness :
    getParams "Endpoint" (Json.obj
        [("technology", Json.str "PJSIP"), ("resource", Json.str "alice")]) =
      .ok [("tech", Json.str "PJSIP"), ("resource", Json.str "alice")] ∧
    idAsStr "Endpoint" (Json.obj
        [("technology", Json.str "PJSIP"), ("resource", Json.str "alice")]) =
      .ok (Json.str ((Json.str "PJSIP").pyStr ++ "/" ++ (Json.str "alice").pyStr)) :=
  (C7_endpoint_identity
    [("technology", Json.str "PJSIP"), ("resource", Json.str "alice")]).1
    (Json.str "PJSIP") (Json.str "alice") rfl rfl

/-! ### C4 — identity parameters always win in the merged parameter set -/

/-- C4: the merged parameter set built by `enrich_operation` is
`kwargs.update(get_params(self.json))`; every identity parameter appears in
the merge with its projection-derived value, even when the caller supplied
an argument of the same name, and names outside the identity parameters
keep the caller's value.  (The merge is a pure function of the projection
and the caller arguments, so repeating an invocation with the same inputs
reproduces the same merged set.) -/
theorem C4_identity_params_win (cls : String) (j : Json)
    (kwargs p : List (String × Json)) (hp : getParams cls j = .ok p) :
    enrichOperationParams cls j kwargs = .ok (dictUpdate kwargs p) ∧
    (∀ k v, dlookup p k = some v →
      dlookup (dictUpdate kwargs p) k = some v) ∧
    (∀ k, dlookup p k = none →
      dlookup (dictUpdate kwargs p) k = dlookup kwargs k) := by
  refine ⟨by simp [enrichOperationParams, hp, Except.map], ?_, ?_⟩
  · intro k v hk
    exact dlookup_dictUpdate_of_some kwargs p k v hk
  · intro k hk
    exact dlookup_dictUpdate_of_none kwargs p k hk

/-- Witness for C4: an Endpoint object invoked with a caller-supplied
`tech` argument still sends the projection's own `tech`. -/
theorem C4_identity_params_win_witness :
    enrichOperationParams "Endpoint"
        (Json.obj [("technology", Json.str "PJSIP"), ("resource", Json.str "alice")])
        [("tech", Json.str "EVIL")] =
      .ok (dictUpdate [("tech", Json.str "EVIL")]
        [("tech", Json.str "PJSIP"), ("resource", Json.str "alice")]) ∧
    dlookup (dictUpdate [("tech", Json.str "EVIL")]
        [("tech", Json.str "PJSIP"), ("resource", Json.str "alice")]) "tech" =
      some (Json.str "PJSIP") := by
  have h := C4_identity_params_win "Endpoint"
    (Json.obj [("technology", Json.str "PJSIP"), ("resource", Json.str "alice")])
    [("tech", Json.str "EVIL")]
    [("tech", Json.str "PJSIP"), ("resource", Json.str "alice")] rfl
  exact ⟨h.1, h.2.1 "tech" (Json.str "PJSIP") rfl⟩

/-! ### C3 — promote and the no-content status -/

/-- C3 counterexample: in the source the `CLASS_MAP` lookup comes first, so
a 204 response for the registry-known declared type `Channel`, whose empty
body `json.loads` rejects, raises instead of returning `None` — the claim
predicts `null` for every 204 response. -/
theorem C3_promote_204_counterexample :
    promote "Channel" ⟨204, none⟩ = .error "ValueError: json.loads failed" ∧
    (Except.error "ValueError: json.loads failed" :
        Except String PromoteResult) ≠ .ok PromoteResult.nullR := by
  exact ⟨rfl, fun h => Except.noConfusion h⟩

/-- C3 amended: `promote` returns `null` on a 204 response only when the
declared element type (after stripping a `List[...]` wrapper) is not a key
of `CLASS_MAP`; the registry lookup is made before the no-content check,
and for a registry-known type the parsed body is used instead. -/
theorem C3_promote_204_amended (responseClass : String) (resp : HttpResponse)
    (hc : resp.code = 204)
    (hk : CLASS_MAP.contains (stripListType responseClass).1 = false) :
    promote responseClass resp = .ok PromoteResult.nullR := by
  have hk' : (stripListType responseClass).1 ∉ CLASS_MAP := by simpa using hk
  simp [promote, hc, hk']

/-- Witness for the amended C3 at an unmapped declared type. -/
theorem C3_promote_204_amended_witness :
    promote "Message" ⟨204, none⟩ = .ok PromoteResult.nullR :=
  C3_promote_204_amended "Message" ⟨204, none⟩ rfl rfl

/-! ### C10 — tornado on_event rejects unknown event types -/

/-- C10: `Client.on_event` of the future-based client raises synchronously
when the event type is not in the client's event models, adding nothing to
the registry; for a known type it appends the new listener to that type's
list and leaves every other list unchanged.  The dispatch loop itself
nevertheless passes events of unknown type through as raw JSON. -/
theorem C10_on_event_unknown_type (eventModels : List (String × Schema))
    (reg : TRegistry) (eventType : String) (lid : Nat)
    (msg : List (String × Json)) :
    (mlookup eventModels eventType = none →
      onEventT eventModels reg eventType lid =
        .error "ValueError: cannot find event model") ∧
    (∀ props, mlookup eventModels eventType = some props →
      ∃ reg', onEventT eventModels reg eventType lid = .ok reg' ∧
        reg' eventType = reg eventType ++ [lid] ∧
        ∀ k, k ≠ eventType → reg' k = reg k) ∧
    (mlookup eventModels eventType = none →
      enrichEvent eventModels eventType msg =
        .ok (msg.map (fun p => (p.1, EValue.raw p.2)))) := by
  refine ⟨?_, ?_, ?_⟩
  · intro hm
    simp [onEventT, hm]
  · intro props hm
    refine ⟨fun k => if k = eventType then reg eventType ++ [lid] else reg k,
      ?_, ?_, ?_⟩
    · simp [onEventT, hm]
    · simp
    · intro k hk
      simp [hk]
  · intro hm
    simp [enrichEvent, hm]

/-- Witness for C10: registering for an event type absent from the models
fails, and a registration for a known type appends the listener. -/
theorem C10_on_event_unknown_type_witness :
    onEventT [("StasisStart", [])] (fun _ => []) "NoSuchEvent" 7 =
      .error "ValueError: cannot find event model" ∧
    enrichEvent [("StasisStart", [])] "NoSuchEvent"
        [("type", Json.str "NoSuchEvent")] =
      .ok [("type", EValue.raw (Json.str "NoSuchEvent"))] := by
  have h := C10_on_event_unknown_type [("StasisStart", [])] (fun _ => [])
    "NoSuchEvent" 7 [("type", Json.str "NoSuchEvent")]
  exact ⟨h.1 rfl, h.2.2 rfl⟩

/-! ### C9 — on_object_event registration-time failures -/

/-- C9: `Client.on_object_event` fails synchronously at registration time —
with no subscription created — both when the event type has no model and
when the model has no field of the requested type. -/
theorem C9_object_event_registration_fails
    (eventModels : List (String × Schema)) (reg : Registry)
    (eventType modelId : String) (c : Nat) :
    (mlookup eventModels eventType = none →
      onObjectEventFields eventModels eventType modelId =
        .error "ValueError: cannot find event model" ∧
      onObjectEventReg eventModels reg eventType modelId c =
        .error "ValueError: cannot find event model") ∧
    (∀ props, mlookup eventModels eventType = some props →
      objFieldsOf props modelId = [] →
      onObjectEventFields eventModels eventType modelId =
        .error "ValueError: event model has no fields of the requested type" ∧
      onObjectEventReg eventModels reg eventType modelId c =
        .error "ValueError: event model has no fields of the requested type") := by
  constructor
  · intro hm
    have hf : onObjectEventFields eventModels eventType modelId =
        .error "ValueError: cannot find event model" := by
      simp [onObjectEventFields, hm]
    exact ⟨hf, by simp [onObjectEventReg, hf, Except.map]⟩
  · intro props hm hz
    have hf : onObjectEventFields eventModels eventType modelId =
        .error "ValueError: event model has no fields of the requested type" := by
      simp [onObjectEventFields, hm, hz]
    exact ⟨hf, by simp [onObjectEventReg, hf, Except.map]⟩

/-- Witness for C9: both failure modes at concrete schemas. -/
theorem C9_object_event_registration_fails_witness :
    onObjectEventReg [("ChannelCreated", [("channel", "Channel")])]
        (fun _ => []) "NoSuchEvent" "Channel" 1 =
      .error "ValueError: cannot find event model" ∧
    onObjectEventReg [("ChannelCreated", [("channel", "Channel")])]
        (fun _ => []) "ChannelCreated" "Bridge" 1 =
      .error "ValueError: event model has no fields of the requested type" := by
  refine ⟨?_, ?_⟩
  · exact ((C9_object_event_registration_fails
      [("ChannelCreated", [("channel", "Channel")])] (fun _ => [])
      "NoSuchEvent" "Channel" 1).1 rfl).2
  · exact ((C9_object_event_registration_fails
      [("ChannelCreated", [("channel", "Channel")])] (fun _ => [])
      "ChannelCreated" "Bridge" 1).2 [("channel", "Channel")] rfl rfl).2

/-! ### C1 / C8 — snapshot delivery and the per-callback exception boundary -/

/-- One snapshot delivery invokes exactly the snapshot's listeners, in
order, regardless of the registry mutations the callbacks perform. -/
theorem deliverAll_delivered (env : Nat → CbSpec) (ls : List Nat)
    (reg : Registry) : (deliverAll env ls reg).2.1 = ls := by
  induction ls generalizing reg with
  | nil => rfl
  | cons c rest ih => simp [deliverAll, ih]

/-- The exceptions reported during one snapshot delivery are exactly those
of the snapshot's throwing callbacks, in delivery order. -/
theorem deliverAll_exceptions (env : Nat → CbSpec) (ls : List Nat)
    (reg : Registry) :
    (deliverAll env ls reg).2.2 = ls.filter (fun c => (env c).throws) := by
  induction ls generalizing reg with
  | nil => rfl
  | cons c rest ih =>
    by_cases h : (env c).throws = true <;>
      simp [deliverAll, ih, List.filter_cons, h]

/-- C1: dispatching one decoded message delivers it to exactly the
listeners registered for its event type at dispatch time, in registration
order, whatever registrations or unregistrations the callbacks perform
during delivery (the snapshot `list(...)` fixes the recipients); and in the
concrete M1/M2 scenario a callback that unsubscribes itself during M1's
delivery still receives M1 but no longer receives M2. -/
theorem C1_snapshot_dispatch :
    (∀ (env : Nat → CbSpec) (reg : Registry) (eventType : String),
      (dispatchOne env reg eventType).2.1 = reg eventType) ∧
    ((dispatchOne
        (fun c => if c = 2 then ⟨[RegOp.unsub "X" 2], false⟩ else ⟨[], false⟩)
        (fun k => if k = "X" then [1, 2, 3] else []) "X").2.1 = [1, 2, 3]) ∧
    ((dispatchOne
        (fun c => if c = 2 then ⟨[RegOp.unsub "X" 2], false⟩ else ⟨[], false⟩)
        ((dispatchOne
          (fun c => if c = 2 then ⟨[RegOp.unsub "X" 2], false⟩ else ⟨[], false⟩)
          (fun k => if k = "X" then [1, 2, 3] else []) "X").1) "X").2.1 =
      [1, 3]) := by
  refine ⟨?_, ?_, ?_⟩
  · intro env reg eventType
    exact deliverAll_delivered env (reg eventType) reg
  · rfl
  · rfl

/-- C8: a throwing persistent callback is caught at the per-listener
dispatch boundary and reported to the client's exception handler; the loop
continues and every other snapshot listener still receives the same event.
Concretely, with listeners `[1, 2]` for type `X` where callback 1 throws,
both 1 and 2 are invoked and exactly callback 1's exception is reported. -/
theorem C8_exception_isolation :
    (∀ (env : Nat → CbSpec) (reg : Registry) (eventType : String),
      (dispatchOne env reg eventType).2.1 = reg eventType ∧
      (dispatchOne env reg eventType).2.2 =
        (reg eventType).filter (fun c => (env c).throws)) ∧
    ((dispatchOne (fun c => ⟨[], c = 1⟩)
        (fun k => if k = "X" then [1, 2] else []) "X").2.1 = [1, 2]) ∧
    ((dispatchOne (fun c => ⟨[], c = 1⟩)
        (fun k => if k = "X" then [1, 2] else []) "X").2.2 = [1]) := by
  refine ⟨?_, rfl, rfl⟩
  intro env reg eventType
  exact ⟨deliverAll_delivered env (reg eventType) reg,
    deliverAll_exceptions env (reg eventType) reg⟩

/-! ### C6 — object extraction for on_object_event subscribers -/

/-- C6: when the schema has exactly one field of the requested model type,
the extractor hands the callback that single constructed value — or `None`
when the field is absent (falsy) in this particular message — rather than a
one-entry mapping; with several such schema fields the callback receives a
field-keyed mapping; and a constructed `Channel` carries the raw JSON's
`id` field as its id, so the ChannelCreated scenario yields a single
object with id `"101"`. -/
theorem C6_single_field_object_extraction (cls : String)
    (event : List (String × Json)) :
    (∀ f : String,
      (((dlookup event f).getD Json.null).truthy = false →
        extractObjects cls [f] event = .ok (ExtractedArg.one none)) ∧
      (∀ v d, dlookup event f = some v → v.truthy = true →
        mkDomainObject cls v = .ok d →
        extractObjects cls [f] event = .ok (ExtractedArg.one (some d)))) ∧
    (∀ (fsx : List String) (r : ExtractedArg), fsx.length ≠ 1 →
      extractObjects cls fsx event = .ok r →
      ∃ m, r = ExtractedArg.many m) ∧
    (∀ v d, mkDomainObject "Channel" v = .ok d →
      d.json = v ∧ v.getField "id" = some d.objId) ∧
    (onObjectEventFields [("ChannelCreated", [("channel", "Channel")])]
        "ChannelCreated" "Channel" = .ok ["channel"]) ∧
    (extractObjects "Channel" ["channel"]
        [("type", Json.str "ChannelCreated"),
         ("channel", Json.obj [("id", Json.str "101")])] =
      .ok (ExtractedArg.one (some
        ⟨"Channel", Json.obj [("id", Json.str "101")], Json.str "101"⟩))) := by
  refine ⟨?_, ?_, ?_, rfl, rfl⟩
  · intro f
    constructor
    · intro hfalse
      simp [extractObjects, List.filter_cons, hfalse, mapExcept]
    · intro v d hv htr hd
      simp [extractObjects, List.filter_cons, hv, htr, mapExcept, hd,
        Except.map, Bind.bind, Except.bind, pure, Except.pure]
  · intro fsx r hlen ho
    simp only [extractObjects] at ho
    cases hm : mapExcept
        (fun f =>
          (mkDomainObject cls ((dlookup event f).getD Json.null)).map
            (fun d => (f, d)))
        (fsx.filter (fun f => ((dlookup event f).getD Json.null).truthy)) with
    | error e => rw [hm] at ho; exact absurd ho (by simp [Bind.bind, Except.bind])
    | ok entries =>
      rw [hm] at ho
      simp only [Bind.bind, Except.bind, if_neg hlen, pure, Except.pure] at ho
      exact ⟨entries, (Except.ok.inj ho).symm⟩
  · intro v d hd
    rw [show mkDomainObject "Channel" v =
        Except.map (fun i => ({ cls := "Channel", json := v, objId := i } :
            DomainObject))
          (match v.getField "id" with
            | some w => Except.ok w
            | none => Except.error ("KeyError: " ++ "id")) from rfl] at hd
    rcases hv : v.getField "id" with _ | w
    · rw [hv] at hd
      exact absurd hd (by simp [Except.map])
    · rw [hv] at hd
      simp only [Except.map, Except.ok.injEq] at hd
      subst hd
      exact ⟨rfl, rfl⟩

/-- Witness for C6: the ChannelCreated scenario, derived by applying the
single-field extraction part at its concrete inputs. -/
theorem C6_single_field_object_extraction_witness :
    extractObjects "Channel" ["channel"]
        [("type", Json.str "ChannelCreated"),
         ("channel", Json.obj [("id", Json.str "101")])] =
      .ok (ExtractedArg.one (some
        ⟨"Channel", Json.obj [("id", Json.str "101")], Json.str "101"⟩)) :=
  ((C6_single_field_object_extraction "Channel"
      [("type", Json.str "ChannelCreated"),
       ("channel", Json.obj [("id", Json.str "101")])]).1 "channel").2
    (Json.obj [("id", Json.str "101")])
    ⟨"Channel", Json.obj [("id", Json.str "101")], Json.str "101"⟩
    rfl rfl rfl

/-! ### C2 — event-field enrichment in the tornado dispatch loop -/

/-- Successful `mapExcept` relates input and output pointwise. -/
theorem mapExcept_ok_forall₂ {α β : Type} (f : α → Except String β)
    (l : List α) (out : List β) (h : mapExcept f l = .ok out) :
    List.Forall₂ (fun a b => f a = .ok b) l out := by
  induction l generalizing out with
  | nil =>
    simp only [mapExcept, Except.ok.injEq] at h
    subst h
    exact List.Forall₂.nil
  | cons a l ih =>
    cases hfa : f a with
    | error e => simp [mapExcept, hfa, Bind.bind, Except.bind] at h
    | ok b =>
      cases hml : mapExcept f l with
      | error e => simp [mapExcept, hfa, hml, Bind.bind, Except.bind] at h
      | ok bs =>
        simp only [mapExcept, hfa, hml, Bind.bind, Except.bind, pure,
          Except.pure, Except.ok.injEq] at h
        subst h
        exact List.Forall₂.cons hfa (ih bs hml)

/-- No `List[...]`-wrapped type name is a key of `CLASS_MAP`. -/
theorem listWrapped_not_in_CLASS_MAP (t : String) :
    ("List[" ++ t ++ "]") ∉ CLASS_MAP := by
  intro h
  have hd : ("List[" ++ t ++ "]").data =
      'L' :: 'i' :: 's' :: 't' :: '[' :: (t.data ++ [']']) := by
    simp [String.data_append]
  have hC : ∀ s ∈ CLASS_MAP, s.data.get? 4 ≠ some '[' := by decide
  have hl : ("List[" ++ t ++ "]").data.get? 4 = some '[' := by
    rw [hd]; exact rfl
  exact hC _ h hl

/-- C2 counterexample: with schema
`E = (chans : List[Channel], channel : Channel)`, dispatching a message
carrying both fields replaces the plain `Channel` field with a constructed
object but passes the `List[Channel]` field through as raw JSON —
`CLASS_MAP` has no `List[...]` key and the loop has no list branch — where
the claim requires a list of constructed DomainObjects. -/
theorem C2_list_field_counterexample :
    enrichEvent [("E", [("chans", "List[Channel]"), ("channel", "Channel")])]
        "E"
        [("type", Json.str "E"),
         ("channel", Json.obj [("id", Json.str "7")]),
         ("chans", Json.arr [Json.obj [("id", Json.str "1")]])] =
      .ok [("type", EValue.raw (Json.str "E")),
           ("channel",
            EValue.dom ⟨"Channel", Json.obj [("id", Json.str "7")], Json.str "7"⟩),
           ("chans", EValue.raw (Json.arr [Json.obj [("id", Json.str "1")]]))] ∧
    (EValue.raw (Json.arr [Json.obj [("id", Json.str "1")]]) ≠
      EValue.domList [⟨"Channel", Json.obj [("id", Json.str "1")], Json.str "1"⟩]) :=
  ⟨rfl, fun h => EValue.noConfusion h⟩

/-- C2 amended: during dispatch of a message whose event type has a schema,
exactly the fields whose declared type is a key of `CLASS_MAP` are replaced
by a constructed DomainObject; every other field — in particular every
field declared with a `List[T]` wrapped type, since no `List[...]` name is
a `CLASS_MAP` key — is passed through unchanged. -/
theorem C2_enrichment_amended (eventModels : List (String × Schema))
    (eventType : String) (props : Schema) (msg : List (String × Json))
    (out : List (String × EValue))
    (hm : mlookup eventModels eventType = some props)
    (ho : enrichEvent eventModels eventType msg = .ok out) :
    List.Forall₂ (fun (p : String × Json) (q : String × EValue) =>
      q.1 = p.1 ∧
      ((∃ ty, slookup props p.1 = some ty ∧ ty ∈ CLASS_MAP ∧
          ∃ d, mkDomainObject ty p.2 = .ok d ∧ q.2 = EValue.dom d) ∨
        ((∀ ty, slookup props p.1 = some ty → ty ∉ CLASS_MAP) ∧
          q.2 = EValue.raw p.2))) msg out := by
  simp only [enrichEvent, hm] at ho
  have hF := mapExcept_ok_forall₂ _ msg out ho
  refine hF.imp ?_
  intro p q hpq
  rcases hs : slookup props p.1 with _ | ty
  · rw [hs] at hpq
    simp only [Except.ok.injEq] at hpq
    subst hpq
    exact ⟨rfl, Or.inr ⟨fun ty hty => Option.noConfusion hty, rfl⟩⟩
  · rw [hs] at hpq
    have hpq2 : (if CLASS_MAP.contains ty = true then
        Except.map (fun d => (p.1, EValue.dom d)) (mkDomainObject ty p.2)
      else Except.ok (p.1, EValue.raw p.2)) = Except.ok q := hpq
    clear hpq
    by_cases hc : CLASS_MAP.contains ty = true
    · rw [if_pos hc] at hpq2
      cases hd : mkDomainObject ty p.2 with
      | error e =>
        rw [hd] at hpq2
        exact absurd hpq2 (by simp [Except.map])
      | ok d =>
        rw [hd] at hpq2
        simp only [Except.map, Except.ok.injEq] at hpq2
        subst hpq2
        exact ⟨rfl, Or.inl ⟨ty, rfl, by simpa using hc, d, hd, rfl⟩⟩
    · rw [if_neg hc] at hpq2
      simp only [Except.ok.injEq] at hpq2
      subst hpq2
      refine ⟨rfl, Or.inr ⟨?_, rfl⟩⟩
      intro ty' hty'
      cases hty'
      simpa using hc

/-- Witness for the amended C2: the concrete message of the counterexample
satisfies the per-field characterisation. -/
theorem C2_enrichment_amended_witness :
    List.Forall₂ (fun (p : String × Json) (q : String × EValue) =>
      q.1 = p.1 ∧
      ((∃ ty, slookup [("chans", "List[Channel]"), ("channel", "Channel")]
            p.1 = some ty ∧ ty ∈ CLASS_MAP ∧
          ∃ d, mkDomainObject ty p.2 = .ok d ∧ q.2 = EValue.dom d) ∨
        ((∀ ty, slookup [("chans", "List[Channel]"), ("channel", "Channel")]
            p.1 = some ty → ty ∉ CLASS_MAP) ∧
          q.2 = EValue.raw p.2)))
      [("type", Json.str "E"),
       ("channel", Json.obj [("id", Json.str "7")]),
       ("chans", Json.arr [Json.obj [("id", Json.str "1")]])]
      [("type", EValue.raw (Json.str "E")),
       ("channel",
        EValue.dom ⟨"Channel", Json.obj [("id", Json.str "7")], Json.str "7"⟩),
       ("chans", EValue.raw (Json.arr [Json.obj [("id", Json.str "1")]]))] :=
  C2_enrichment_amended
    [("E", [("chans", "List[Channel]"), ("channel", "Channel")])] "E"
    [("chans", "List[Channel]"), ("channel", "Channel")]
    [("type", Json.str "E"),
     ("channel", Json.obj [("id", Json.str "7")]),
     ("chans", Json.arr [Json.obj [("id", Json.str "1")]])]
    [("type", EValue.raw (Json.str "E")),
     ("channel",
      EValue.dom ⟨"Channel", Json.obj [("id", Json.str "7")], Json.str "7"⟩),
     ("chans", EValue.raw (Json.arr [Json.obj [("id", Json.str "1")]]))]
    rfl rfl

/-! ### C5 — single-resolution handles never double-resolve -/

/-- Unfolding `runPass` in the already-done branch. -/
theorem runPass_done (l : List Handle) (p : Nat) (hp : p < l.length)
    (hd : (l.get ⟨p, hp⟩).done = true) :
    runPass l p =
      { runPass (l.erase (l.get ⟨p, hp⟩)) (p + 1) with
        prunedStale := (l.get ⟨p, hp⟩).hid ::
          (runPass (l.erase (l.get ⟨p, hp⟩)) (p + 1)).prunedStale
        visited := (l.get ⟨p, hp⟩).hid ::
          (runPass (l.erase (l.get ⟨p, hp⟩)) (p + 1)).visited } := by
  rw [runPass]
  simp only [dif_pos hp, hd, if_true]

/-- Unfolding `runPass` in the set_result branch. -/
theorem runPass_matched (l : List Handle) (p : Nat) (hp : p < l.length)
    (hd : (l.get ⟨p, hp⟩).done = false)
    (hm : (l.get ⟨p, hp⟩).matched = true) :
    runPass l p =
      { runPass (l.erase (l.get ⟨p, hp⟩)) (p + 1) with
        resolved := (l.get ⟨p, hp⟩).hid ::
          (runPass (l.erase (l.get ⟨p, hp⟩)) (p + 1)).resolved
        visited := (l.get ⟨p, hp⟩).hid ::
          (runPass (l.erase (l.get ⟨p, hp⟩)) (p + 1)).visited } := by
  rw [runPass]
  simp only [dif_pos hp, hd, hm, if_true, Bool.false_eq_true, if_false]

/-- Unfolding `runPass` in the no-match branch. -/
theorem runPass_skip (l : List Handle) (p : Nat) (hp : p < l.length)
    (hd : (l.get ⟨p, hp⟩).done = false)
    (hm : (l.get ⟨p, hp⟩).matched = false) :
    runPass l p =
      { runPass l (p + 1) with
        visited := (l.get ⟨p, hp⟩).hid :: (runPass l (p + 1)).visited } := by
  rw [runPass]
  simp only [dif_pos hp, hd, hm, Bool.false_eq_true, if_false]

/-- Unfolding `runPass` past the end of the list. -/
theorem runPass_stop (l : List Handle) (p : Nat) (hp : ¬p < l.length) :
    runPass l p = ⟨l, [], [], []⟩ := by
  rw [runPass]
  simp only [dif_neg hp]

/-- The list a pass leaves behind is a sublist of the list it started
from. -/
theorem runPass_remaining_sublist (l : List Handle) (p : Nat) :
    ((runPass l p).remaining).Sublist l := by
  induction l, p using runPass.induct with
  | case1 l p hp x hd ih =>
    have hx : x = l.get ⟨p, hp⟩ := rfl
    rw [runPass_done l p hp (hx ▸ hd), ← hx]
    exact ih.trans (List.erase_sublist _ _)
  | case2 l p hp x hnd hm ih =>
    have hx : x = l.get ⟨p, hp⟩ := rfl
    rw [runPass_matched l p hp (hx ▸ (by simpa using hnd)) (hx ▸ hm), ← hx]
    exact ih.trans (List.erase_sublist _ _)
  | case3 l p hp x hnd hnm ih =>
    have hx : x = l.get ⟨p, hp⟩ := rfl
    rw [runPass_skip l p hp (hx ▸ (by simpa using hnd)) (hx ▸ (by simpa using hnm)), ← hx]
    exact ih
  | case4 l p hp =>
    rw [runPass_stop l p hp]

/-- Every id a pass resolves belongs to a pending, matching handle of the
starting list. -/
theorem runPass_resolved_mem (l : List Handle) (p : Nat) :
    ∀ i ∈ (runPass l p).resolved,
      ∃ h, h ∈ l ∧ h.hid = i ∧ h.done = false ∧ h.matched = true := by
  induction l, p using runPass.induct with
  | case1 l p hp x hd ih =>
    have hx : x = l.get ⟨p, hp⟩ := rfl
    rw [runPass_done l p hp (hx ▸ hd), ← hx]
    intro i hi
    rcases ih i hi with ⟨h, hh, rest⟩
    exact ⟨h, List.erase_subset _ _ hh, rest⟩
  | case2 l p hp x hnd hm ih =>
    have hx : x = l.get ⟨p, hp⟩ := rfl
    rw [runPass_matched l p hp (hx ▸ (by simpa using hnd)) (hx ▸ hm), ← hx]
    intro i hi
    rcases List.mem_cons.mp hi with hi | hi
    · exact ⟨x, hx ▸ l.get_mem p hp, hi.symm, by simpa using hnd, hm⟩
    · rcases ih i hi with ⟨h, hh, rest⟩
      exact ⟨h, List.erase_subset _ _ hh, rest⟩
  | case3 l p hp x hnd hnm ih =>
    have hx : x = l.get ⟨p, hp⟩ := rfl
    rw [runPass_skip l p hp (hx ▸ (by simpa using hnd)) (hx ▸ (by simpa using hnm)), ← hx]
    exact ih
  | case4 l p hp =>
    rw [runPass_stop l p hp]
    intro i hi
    exact absurd hi (List.not_mem_nil i)

/-- Every id a pass prunes as stale belongs to an already-done handle of
the starting list. -/
theorem runPass_stale_mem (l : List Handle) (p : Nat) :
    ∀ i ∈ (runPass l p).prunedStale,
      ∃ h, h ∈ l ∧ h.hid = i ∧ h.done = true := by
  induction l, p using runPass.induct with
  | case1 l p hp x hd ih =>
    have hx : x = l.get ⟨p, hp⟩ := rfl
    rw [runPass_done l p hp (hx ▸ hd), ← hx]
    intro i hi
    rcases List.mem_cons.mp hi with hi | hi
    · exact ⟨x, hx ▸ l.get_mem p hp, hi.symm, hd⟩
    · rcases ih i hi with ⟨h, hh, rest⟩
      exact ⟨h, List.erase_subset _ _ hh, rest⟩
  | case2 l p hp x hnd hm ih =>
    have hx : x = l.get ⟨p, hp⟩ := rfl
    rw [runPass_matched l p hp (hx ▸ (by simpa using hnd)) (hx ▸ hm), ← hx]
    intro i hi
    rcases ih i hi with ⟨h, hh, rest⟩
    exact ⟨h, List.erase_subset _ _ hh, rest⟩
  | case3 l p hp x hnd hnm ih =>
    have hx : x = l.get ⟨p, hp⟩ := rfl
    rw [runPass_skip l p hp (hx ▸ (by simpa using hnd)) (hx ▸ (by simpa using hnm)), ← hx]
    exact ih
  | case4 l p hp =>
    rw [runPass_stop l p hp]
    intro i hi
    exact absurd hi (List.not_mem_nil i)

/-- Every id a pass visits belongs to a handle of the starting list. -/
theorem runPass_visited_mem (l : List Handle) (p : Nat) :
    ∀ i ∈ (runPass l p).visited, ∃ h, h ∈ l ∧ h.hid = i := by
  induction l, p using runPass.induct with
  | case1 l p hp x hd ih =>
    have hx : x = l.get ⟨p, hp⟩ := rfl
    rw [runPass_done l p hp (hx ▸ hd), ← hx]
    intro i hi
    rcases List.mem_cons.mp hi with hi | hi
    · exact ⟨x, hx ▸ l.get_mem p hp, hi.symm⟩
    · rcases ih i hi with ⟨h, hh, rest⟩
      exact ⟨h, List.erase_subset _ _ hh, rest⟩
  | case2 l p hp x hnd hm ih =>
    have hx : x = l.get ⟨p, hp⟩ := rfl
    rw [runPass_matched l p hp (hx ▸ (by simpa using hnd)) (hx ▸ hm), ← hx]
    intro i hi
    rcases List.mem_cons.mp hi with hi | hi
    · exact ⟨x, hx ▸ l.get_mem p hp, hi.symm⟩
    · rcases ih i hi with ⟨h, hh, rest⟩
      exact ⟨h, List.erase_subset _ _ hh, rest⟩
  | case3 l p hp x hnd hnm ih =>
    have hx : x = l.get ⟨p, hp⟩ := rfl
    rw [runPass_skip l p hp (hx ▸ (by simpa using hnd)) (hx ▸ (by simpa using hnm)), ← hx]
    intro i hi
    rcases List.mem_cons.mp hi with hi | hi
    · exact ⟨x, hx ▸ l.get_mem p hp, hi.symm⟩
    · exact ih i hi
  | case4 l p hp =>
    rw [runPass_stop l p hp]
    intro i hi
    exact absurd hi (List.not_mem_nil i)

/-- With pairwise-distinct handle ids, erasing a handle removes its id. -/
theorem hid_not_mem_erase (l : List Handle) (x : Handle) (hx : x ∈ l)
    (hnd : (l.map Handle.hid).Nodup) :
    x.hid ∉ (l.erase x).map Handle.hid := by
  intro hmem
  rcases List.mem_map.mp hmem with ⟨h, hh, hhid⟩
  have hhl : h ∈ l := List.erase_subset _ _ hh
  have hhx : h = x := List.inj_on_of_nodup_map hnd hhl hx hhid
  subst hhx
  have hlnd : l.Nodup := List.Nodup.of_map _ hnd
  exact ((List.Nodup.mem_erase_iff hlnd).mp hh).1 rfl

/-- Distinct ids survive erasing an element. -/
theorem nodup_ids_erase (l : List Handle) (x : Handle)
    (hnd : (l.map Handle.hid).Nodup) :
    ((l.erase x).map Handle.hid).Nodup :=
  List.Nodup.sublist (List.Sublist.map Handle.hid (List.erase_sublist x l)) hnd

/-- With pairwise-distinct ids, an id the pass resolved or pruned is gone
from the listener list the pass leaves behind. -/
theorem runPass_handled_not_remaining (l : List Handle) (p : Nat) :
    (l.map Handle.hid).Nodup →
    ∀ i, (i ∈ (runPass l p).resolved ∨ i ∈ (runPass l p).prunedStale) →
      i ∉ (runPass l p).remaining.map Handle.hid := by
  induction l, p using runPass.induct with
  | case1 l p hp x hd ih =>
    have hx : x = l.get ⟨p, hp⟩ := rfl
    have hxl : x ∈ l := hx ▸ l.get_mem p hp
    intro hnd i hi
    have hnd' : ((l.erase x).map Handle.hid).Nodup := nodup_ids_erase l x hnd
    rw [runPass_done l p hp (hx ▸ hd), ← hx] at hi ⊢
    rcases hi with hi | hi
    · exact ih hnd' i (Or.inl hi)
    · rcases List.mem_cons.mp hi with hi | hi
      · subst hi
        intro hmem
        have hsub := List.Sublist.map Handle.hid
          (runPass_remaining_sublist (l.erase x) (p + 1))
        exact hid_not_mem_erase l x hxl hnd (hsub.subset hmem)
      · exact ih hnd' i (Or.inr hi)
  | case2 l p hp x hnd0 hm ih =>
    have hx : x = l.get ⟨p, hp⟩ := rfl
    have hxl : x ∈ l := hx ▸ l.get_mem p hp
    intro hnd i hi
    have hnd' : ((l.erase x).map Handle.hid).Nodup := nodup_ids_erase l x hnd
    rw [runPass_matched l p hp (hx ▸ (by simpa using hnd0)) (hx ▸ hm), ← hx]
      at hi ⊢
    rcases hi with hi | hi
    · rcases List.mem_cons.mp hi with hi | hi
      · subst hi
        intro hmem
        have hsub := List.Sublist.map Handle.hid
          (runPass_remaining_sublist (l.erase x) (p + 1))
        exact hid_not_mem_erase l x hxl hnd (hsub.subset hmem)
      · exact ih hnd' i (Or.inl hi)
    · exact ih hnd' i (Or.inr hi)
  | case3 l p hp x hnd0 hnm ih =>
    have hx : x = l.get ⟨p, hp⟩ := rfl
    intro hnd i hi
    rw [runPass_skip l p hp (hx ▸ (by simpa using hnd0))
      (hx ▸ (by simpa using hnm)), ← hx] at hi ⊢
    exact ih hnd i hi
  | case4 l p hp =>
    intro hnd i hi
    rw [runPass_stop l p hp] at hi
    rcases hi with hi | hi <;> exact absurd hi (List.not_mem_nil i)

/-- With pairwise-distinct ids, an already-done handle the pass reaches is
pruned as stale. -/
theorem runPass_visited_done_pruned (l : List Handle) (p : Nat) :
    (l.map Handle.hid).Nodup →
    ∀ h, h ∈ l → h.done = true → h.hid ∈ (runPass l p).visited →
      h.hid ∈ (runPass l p).prunedStale := by
  induction l, p using runPass.induct with
  | case1 l p hp x hd ih =>
    have hx : x = l.get ⟨p, hp⟩ := rfl
    have hxl : x ∈ l := hx ▸ l.get_mem p hp
    intro hnd h hl hdone hvis
    have hnd' : ((l.erase x).map Handle.hid).Nodup := nodup_ids_erase l x hnd
    rw [runPass_done l p hp (hx ▸ hd), ← hx] at hvis ⊢
    rcases List.mem_cons.mp hvis with hv | hv
    · exact hv ▸ List.mem_cons_self _ _
    · rcases runPass_visited_mem (l.erase x) (p + 1) h.hid hv with
        ⟨h', hh', hid'⟩
      have hh'l : h' ∈ l := List.erase_subset _ _ hh'
      have : h' = h := List.inj_on_of_nodup_map hnd hh'l hl hid'
      subst this
      exact List.mem_cons_of_mem _ (ih hnd' h' hh' hdone hv)
  | case2 l p hp x hnd0 hm ih =>
    have hx : x = l.get ⟨p, hp⟩ := rfl
    have hxl : x ∈ l := hx ▸ l.get_mem p hp
    intro hnd h hl hdone hvis
    have hnd' : ((l.erase x).map Handle.hid).Nodup := nodup_ids_erase l x hnd
    rw [runPass_matched l p hp (hx ▸ (by simpa using hnd0)) (hx ▸ hm), ← hx]
      at hvis ⊢
    rcases List.mem_cons.mp hvis with hv | hv
    · have : h = x := List.inj_on_of_nodup_map hnd hl hxl hv
      subst this
      exact absurd hdone (by simpa using hnd0)
    · rcases runPass_visited_mem (l.erase x) (p + 1) h.hid hv with
        ⟨h', hh', hid'⟩
      have hh'l : h' ∈ l := List.erase_subset _ _ hh'
      have : h' = h := List.inj_on_of_nodup_map hnd hh'l hl hid'
      subst this
      exact ih hnd' h' hh' hdone hv
  | case3 l p hp x hnd0 hnm ih =>
    have hx : x = l.get ⟨p, hp⟩ := rfl
    have hxl : x ∈ l := hx ▸ l.get_mem p hp
    intro hnd h hl hdone hvis
    rw [runPass_skip l p hp (hx ▸ (by simpa using hnd0))
      (hx ▸ (by simpa using hnm)), ← hx] at hvis ⊢
    rcases List.mem_cons.mp hvis with hv | hv
    · have : h = x := List.inj_on_of_nodup_map hnd hl hxl hv
      subst this
      exact absurd hdone (by simpa using hnd0)
    · exact ih hnd h hl hdone hv
  | case4 l p hp =>
    intro hnd h hl hdone hvis
    rw [runPass_stop l p hp] at hvis
    exact absurd hvis (List.not_mem_nil _)

/-- With pairwise-distinct ids, a pending matching handle the pass reaches
is resolved exactly once. -/
theorem runPass_visited_matched_count (l : List Handle) (p : Nat) :
    (l.map Handle.hid).Nodup →
    ∀ h, h ∈ l → h.done = false → h.matched = true →
      h.hid ∈ (runPass l p).visited →
      (runPass l p).resolved.count h.hid = 1 := by
  induction l, p using runPass.induct with
  | case1 l p hp x hd ih =>
    have hx : x = l.get ⟨p, hp⟩ := rfl
    have hxl : x ∈ l := hx ▸ l.get_mem p hp
    intro hnd h hl hdone hm hvis
    have hnd' : ((l.erase x).map Handle.hid).Nodup := nodup_ids_erase l x hnd
    rw [runPass_done l p hp (hx ▸ hd), ← hx] at hvis ⊢
    rcases List.mem_cons.mp hvis with hv | hv
    · have : h = x := List.inj_on_of_nodup_map hnd hl hxl hv
      subst this
      rw [hdone] at hd
      exact Bool.noConfusion hd
    · rcases runPass_visited_mem (l.erase x) (p + 1) h.hid hv with
        ⟨h', hh', hid'⟩
      have hh'l : h' ∈ l := List.erase_subset _ _ hh'
      have : h' = h := List.inj_on_of_nodup_map hnd hh'l hl hid'
      subst this
      exact ih hnd' h' hh' hdone hm hv
  | case2 l p hp x hnd0 hm0 ih =>
    have hx : x = l.get ⟨p, hp⟩ := rfl
    have hxl : x ∈ l := hx ▸ l.get_mem p hp
    intro hnd h hl hdone hm hvis
    have hnd' : ((l.erase x).map Handle.hid).Nodup := nodup_ids_erase l x hnd
    rw [runPass_matched l p hp (hx ▸ (by simpa using hnd0)) (hx ▸ hm0), ← hx]
      at hvis ⊢
    have hres_erase : x.hid ∉ (runPass (l.erase x) (p + 1)).resolved := by
      intro hmem
      rcases runPass_resolved_mem (l.erase x) (p + 1) x.hid hmem with
        ⟨h', hh', hid', _, _⟩
      exact hid_not_mem_erase l x hxl hnd
        (List.mem_map.mpr ⟨h', hh', hid'⟩)
    rcases List.mem_cons.mp hvis with hv | hv
    · rw [hv, List.count_cons_self]
      rw [List.count_eq_zero.mpr hres_erase]
    · rcases runPass_visited_mem (l.erase x) (p + 1) h.hid hv with
        ⟨h', hh', hid'⟩
      have hh'l : h' ∈ l := List.erase_subset _ _ hh'
      have hh : h' = h := List.inj_on_of_nodup_map hnd hh'l hl hid'
      subst hh
      have hne : x.hid ≠ h'.hid := by
        intro he
        exact hid_not_mem_erase l x hxl hnd
          (he ▸ List.mem_map.mpr ⟨h', hh', rfl⟩)
      rw [List.count_cons_of_ne (fun he => hne he.symm) ]
      exact ih hnd' h' hh' hdone hm hv
  | case3 l p hp x hnd0 hnm ih =>
    have hx : x = l.get ⟨p, hp⟩ := rfl
    have hxl : x ∈ l := hx ▸ l.get_mem p hp
    intro hnd h hl hdone hm hvis
    rw [runPass_skip l p hp (hx ▸ (by simpa using hnd0))
      (hx ▸ (by simpa using hnm)), ← hx] at hvis ⊢
    rcases List.mem_cons.mp hvis with hv | hv
    · have : h = x := List.inj_on_of_nodup_map hnd hl hxl hv
      subst this
      exact absurd hm hnm
    · exact ih hnd h hl hdone hm hv
  | case4 l p hp =>
    intro hnd h hl hdone hm hvis
    rw [runPass_stop l p hp] at hvis
    exact absurd hvis (List.not_mem_nil _)

/-- C5: over one delivery pass with pairwise-distinct handles, an
already-resolved handle is never resolved again — whatever its predicate
would say — and when the pass reaches it, it is pruned from the registry
without `set_result`; a pending handle with a passing predicate that the
pass reaches is resolved exactly once and then pruned. -/
theorem C5_single_resolution (l : List Handle) (p : Nat)
    (hnd : (l.map Handle.hid).Nodup) :
    (∀ h, h ∈ l → h.done = true → h.hid ∉ (runPass l p).resolved) ∧
    (∀ h, h ∈ l → h.done = true → h.hid ∈ (runPass l p).visited →
      h.hid ∈ (runPass l p).prunedStale ∧
      h.hid ∉ (runPass l p).remaining.map Handle.hid) ∧
    (∀ h, h ∈ l → h.done = false → h.matched = true →
      h.hid ∈ (runPass l p).visited →
      (runPass l p).resolved.count h.hid = 1 ∧
      h.hid ∉ (runPass l p).remaining.map Handle.hid) := by
  refine ⟨?_, ?_, ?_⟩
  · intro h hl hdone hres
    rcases runPass_resolved_mem l p h.hid hres with ⟨h', hl', hid', hdone', _⟩
    have hh : h' = h := List.inj_on_of_nodup_map hnd hl' hl hid'
    subst hh
    rw [hdone] at hdone'
    exact Bool.noConfusion hdone'
  · intro h hl hdone hvis
    have h1 := runPass_visited_done_pruned l p hnd h hl hdone hvis
    exact ⟨h1, runPass_handled_not_remaining l p hnd h.hid (Or.inr h1)⟩
  · intro h hl hdone hm hvis
    have hc := runPass_visited_matched_count l p hnd h hl hdone hm hvis
    have hmem : h.hid ∈ (runPass l p).resolved :=
      List.count_pos_iff.mp (by rw [hc]; exact Nat.one_pos)
    exact ⟨hc, runPass_handled_not_remaining l p hnd h.hid (Or.inl hmem)⟩

/-- Witness for C5 at three concrete passes: a stale handle among pending
ones is never resolved; a reached stale handle is pruned; a reached
pending matching handle is resolved exactly once and pruned. -/
theorem C5_single_resolution_witness :
    ((1 : Nat) ∉ (runPass [⟨1, true, true⟩, ⟨2, false, true⟩] 0).resolved) ∧
    ((5 : Nat) ∈ (runPass [⟨5, true, false⟩] 0).prunedStale ∧
      (5 : Nat) ∉ (runPass [⟨5, true, false⟩] 0).remaining.map Handle.hid) ∧
    ((runPass [⟨1, false, true⟩, ⟨2, true, true⟩, ⟨3, false, true⟩]
        0).resolved.count 1 = 1 ∧
      (1 : Nat) ∉ (runPass [⟨1, false, true⟩, ⟨2, true, true⟩,
        ⟨3, false, true⟩] 0).remaining.map Handle.hid) := by
  refine ⟨?_, ?_, ?_⟩
  · exact (C5_single_resolution [⟨1, true, true⟩, ⟨2, false, true⟩] 0
      (by decide)).1 ⟨1, true, true⟩ (by decide) rfl
  · exact (C5_single_resolution [⟨5, true, false⟩] 0 (by decide)).2.1
      ⟨5, true, false⟩ (by decide) rfl (by simp [runPass.eq_def])
  · exact (C5_single_resolution
      [⟨1, false, true⟩, ⟨2, true, true⟩, ⟨3, false, true⟩] 0 (by decide)).2.2
      ⟨1, false, true⟩ (by decide) rfl rfl (by simp [runPass.eq_def])

end AriPy
